import Mathlib

/-!
Shallow embedding of the LMDB-backed typed storage layer (`src/mdb.c`,
`src/mdb.h`) of goaccess.

Each LMDB named sub-table is modelled as an association list from keys to
values; `mdb_get` is first-match lookup and `mdb_put` with flags `0`
replaces the binding in place when the key is present and appends it
otherwise (so key sets stay duplicate-free and `mdb_stat`'s entry count is
the list length).  Each C static accessor (`get_si32`, `ins_si32`, ...)
takes an `Option` table — `none` models the `NULL` `MDB_dbi *` handle its
`if (!db)` guard checks — and mutators return the written-back table next
to the C return code.  The process-wide `db_storage` pointer together with
the five global table handles is an `Option Storage`; `none` models the
state before `ginit_storage` ran.  C `int` values are `Int` (signed
overflow is undefined behaviour in the source, so the embedding uses ideal
integers), `uint64_t` values are `Nat` and the one place uint64 arithmetic
happens — the read-add-write of `inc_su64`/`inc_iu64` — reduces modulo
`2 ^ 64` exactly where the C addition wraps.
-/

namespace Mdb

/-- Wrap-around modulus of `uint64_t` arithmetic. -/
def U64 : Nat := 2 ^ 64

/-- Model of `mdb_get` on an association-list table: value of the first
binding of the queried key, `none` when the key is absent
(`MDB_NOTFOUND`). -/
def mdbGet {κ ν : Type} [DecidableEq κ] : List (κ × ν) → κ → Option ν
  | [], _ => none
  | (k, v) :: t, q => if q = k then some v else mdbGet t q

/-- Model of `mdb_put` with flags `0`: replace the binding in place when
the key is present, append it otherwise. -/
def mdbPut {κ ν : Type} [DecidableEq κ] : List (κ × ν) → κ → ν → List (κ × ν)
  | [], q, w => [(q, w)]
  | (k, v) :: t, q, w => if q = k then (q, w) :: t else (k, v) :: mdbPut t q w

/-- Table keyed by C strings holding C `int` values (keymap, uniqmap,
unique keys, agent keys). -/
abbrev SI32 := List (String × Int)

/-- Table keyed by C `int` holding string values (datamap, rootmap,
methods, protocols, agents, agent values). -/
abbrev IS32 := List (Int × String)

/-- Table keyed by C `int` holding C `int` values (root, hits,
visitors). -/
abbrev II32 := List (Int × Int)

/-- Table keyed by C `int` holding `uint64_t` values (bw, cumts,
maxts). -/
abbrev IU64 := List (Int × Nat)

/-- Table keyed by C strings holding `uint64_t` values (metadata). -/
abbrev SU64 := List (String × Nat)

/-- Table keyed by C strings holding string values (hostnames). -/
abbrev SS32 := List (String × String)

/-- Model of `db_get_size`: `mdb_stat`'s `ms_entries` count of the
table. -/
def db_get_size {κ ν : Type} (t : List (κ × ν)) : Nat := t.length

/-- Model of `get_si32`: int value of a string key; `-1` on a `NULL`
handle or when the key is not found. -/
def get_si32 (db : Option SI32) (k : String) : Int :=
  match db with
  | none => -1
  | some t => (mdbGet t k).getD (-1)

/-- Model of `ins_si32`: put a string key with an int value (`mdb_put`
with flags `0`, so an existing binding is overwritten); returns `-1` only
on a `NULL` handle, else `0` and the updated table. -/
def ins_si32 (db : Option SI32) (k : String) (value : Int) : Int × Option SI32 :=
  match db with
  | none => (-1, none)
  | some t => (0, some (mdbPut t k value))

/-- Model of `ins_si32_ai`: auto-increment insert; the value is
`size + 1` where `size` is the current entry count (`size > 0 ? size + 1 : 1`
in the source), and that value is returned on success. -/
def ins_si32_ai (db : Option SI32) (k : String) : Int × Option SI32 :=
  match db with
  | none => (-1, none)
  | some t =>
    let size := db_get_size t
    let value : Int := if size > 0 then (size : Int) + 1 else 1
    let p := ins_si32 (some t) k value
    if p.1 = -1 then (-1, p.2) else (value, p.2)

/-- Model of `ins_is32`: put an int key with a string value. -/
def ins_is32 (db : Option IS32) (k : Int) (value : String) : Int × Option IS32 :=
  match db with
  | none => (-1, none)
  | some t => (0, some (mdbPut t k value))

/-- Model of `ins_ii32`: put an int key with an int value, replacing any
existing binding. -/
def ins_ii32 (db : Option II32) (k : Int) (value : Int) : Int × Option II32 :=
  match db with
  | none => (-1, none)
  | some t => (0, some (mdbPut t k value))

/-- Model of `inc_ii32`: read the int value of an int key (the increment
itself when the key is absent), add `inc`, write back. -/
def inc_ii32 (db : Option II32) (k : Int) (inc : Int) : Int × Option II32 :=
  match db with
  | none => (-1, none)
  | some t =>
    let ret : Int :=
      match mdbGet t k with
      | some cur => cur + inc
      | none => inc
    (0, some (mdbPut t k ret))

/-- Model of `inc_su64`: read the uint64 value of a string key (the
increment itself when the key is absent), add `inc` with uint64
wrap-around, write back. -/
def inc_su64 (db : Option SU64) (k : String) (inc : Nat) : Int × Option SU64 :=
  match db with
  | none => (-1, none)
  | some t =>
    let ret : Nat :=
      match mdbGet t k with
      | some cur => (cur + inc) % U64
      | none => inc
    (0, some (mdbPut t k ret))

/-- Model of `inc_iu64`: read the uint64 value of an int key (the
increment itself when the key is absent), add `inc` with uint64
wrap-around, write back. -/
def inc_iu64 (db : Option IU64) (k : Int) (inc : Nat) : Int × Option IU64 :=
  match db with
  | none => (-1, none)
  | some t =>
    let ret : Nat :=
      match mdbGet t k with
      | some cur => (cur + inc) % U64
      | none => inc
    (0, some (mdbPut t k ret))

/-- Model of `get_iu64`: uint64 value of an int key, `0` when the key is
not found.  On a `NULL` handle the C source returns `-1` from a
`uint64_t`-typed function, i.e. the value `2 ^ 64 - 1`. -/
def get_iu64 (db : Option IU64) (k : Int) : Nat :=
  match db with
  | none => U64 - 1
  | some t => (mdbGet t k).getD 0

/-- Model of `ins_iu64`: put an int key with a uint64 value, replacing
any existing binding. -/
def ins_iu64 (db : Option IU64) (k : Int) (value : Nat) : Int × Option IU64 :=
  match db with
  | none => (-1, none)
  | some t => (0, some (mdbPut t k value))

/-- Model of `get_ss32`: string value of a string key, `none` on a
`NULL` handle or when the key is not found (`xstrdup` copies, so the
value itself is returned). -/
def get_ss32 (db : Option SS32) (k : String) : Option String :=
  match db with
  | none => none
  | some t => mdbGet t k

/-- Model of `get_is32`: string value of an int key, `none` on a `NULL`
handle or when the key is not found. -/
def get_is32 (db : Option IS32) (k : Int) : Option String :=
  match db with
  | none => none
  | some t => mdbGet t k

/-- Model of `get_ii32`: int value of an int key, `0` when the key is not
found, `-1` on a `NULL` handle. -/
def get_ii32 (db : Option II32) (k : Int) : Int :=
  match db with
  | none => -1
  | some t => (mdbGet t k).getD 0

/-- Modelled from the spec: the `GModule` enumeration lives in
`commons.h`, which is not under `src`; the spec describes modules as a
closed, enumerable set of analysis dimensions known at startup, of which
the code here distinguishes only `VISITORS` (the designated
string-reporting module in `db_parse_raw_data`). -/
inductive GModule
  | VISITORS
  | REQUESTS
  | HOSTS
deriving DecidableEq

/-- Per-module metric tables opened by `init_tables`: one table per
`GSMetric` of the fourteen-entry `metrics[]` schema. -/
structure ModuleTables where
  keymap : SI32
  rootmap : IS32
  datamap : IS32
  uniqmap : SI32
  root : II32
  hits : II32
  visitors : II32
  bw : IU64
  cumts : IU64
  maxts : IU64
  methods : IS32
  protocols : IS32
  agents : IS32
  metadata : SU64
deriving DecidableEq

/-- Fourteen freshly created (empty) metric tables. -/
def emptyTables : ModuleTables :=
  ⟨[], [], [], [], [], [], [], [], [], [], [], [], [], []⟩

/-- State of the storage layer after `ginit_storage`: the five global
tables and the per-module registry.  (`ht_general_stats` is created by
`ginit_storage` but never accessed by any function in `mdb.c`, so it is
omitted.)  An unregistered module — one absent from `module_list`, so
`init_tables` never ran for it — has no entry in `modules`, and `get_db`
resolves its tables to `NULL`. -/
structure Storage where
  agent_keys : SI32
  agent_vals : IS32
  hostnames : SS32
  unique_keys : SI32
  modules : List (GModule × ModuleTables)
deriving DecidableEq

/-- Model of `ginit_storage`: all global and per-module tables are
created empty, one `ModuleTables` per module of `module_list`. -/
def ginit_storage (module_list : List GModule) : Storage :=
  { agent_keys := []
    agent_vals := []
    hostnames := []
    unique_keys := []
    modules := module_list.map (fun m => (m, emptyTables)) }

/-- Model of `db_insert_unique_key`: return the existing id of the key in
the global unique-keys table if present, else auto-increment insert. -/
def db_insert_unique_key (s : Option Storage) (key : String) : Int × Option Storage :=
  match s with
  | none => (-1, none)
  | some st =>
    let db := some st.unique_keys
    let value := get_si32 db key
    if value ≠ -1 then (value, some st)
    else
      let p := ins_si32_ai db key
      (p.1, some { st with unique_keys := p.2.getD st.unique_keys })

/-- Model of `db_insert_agent_key`: return the existing id of the key in
the global agent-keys table if present, else auto-increment insert. -/
def db_insert_agent_key (s : Option Storage) (key : String) : Int × Option Storage :=
  match s with
  | none => (-1, none)
  | some st =>
    let db := some st.agent_keys
    let value := get_si32 db key
    if value ≠ -1 then (value, some st)
    else
      let p := ins_si32_ai db key
      (p.1, some { st with agent_keys := p.2.getD st.agent_keys })

/-- Model of `db_insert_agent_value`: put into the global agent-values
table. -/
def db_insert_agent_value (s : Option Storage) (key : Int) (value : String) : Int × Option Storage :=
  match s with
  | none => (-1, none)
  | some st =>
    let p := ins_is32 (some st.agent_vals) key value
    (p.1, some { st with agent_vals := p.2.getD st.agent_vals })

/-- Model of `db_insert_keymap`: return the existing id of the key in the
module's keymap if present, else auto-increment insert.  `get_db`
resolves to `NULL` when storage was never initialized or the module is
unregistered. -/
def db_insert_keymap (s : Option Storage) (m : GModule) (key : String) : Int × Option Storage :=
  match s with
  | none => (-1, none)
  | some st =>
    match mdbGet st.modules m with
    | none => (-1, some st)
    | some tb =>
      let db := some tb.keymap
      let value := get_si32 db key
      if value ≠ -1 then (value, some st)
      else
        let p := ins_si32_ai db key
        (p.1, some { st with modules := mdbPut st.modules m { tb with keymap := p.2.getD tb.keymap } })

/-- Model of `db_insert_uniqmap`: when the key is already present the
source returns the literal `0` (not the stored value); otherwise
auto-increment insert into the module's uniqmap. -/
def db_insert_uniqmap (s : Option Storage) (m : GModule) (key : String) : Int × Option Storage :=
  match s with
  | none => (-1, none)
  | some st =>
    match mdbGet st.modules m with
    | none => (-1, some st)
    | some tb =>
      let db := some tb.uniqmap
      let value := get_si32 db key
      if value ≠ -1 then (0, some st)
      else
        let p := ins_si32_ai db key
        (p.1, some { st with modules := mdbPut st.modules m { tb with uniqmap := p.2.getD tb.uniqmap } })

/-- Model of `db_insert_datamap`: put into the module's datamap. -/
def db_insert_datamap (s : Option Storage) (m : GModule) (key : Int) (value : String) : Int × Option Storage :=
  match s with
  | none => (-1, none)
  | some st =>
    match mdbGet st.modules m with
    | none => (-1, some st)
    | some tb =>
      let p := ins_is32 (some tb.datamap) key value
      (p.1, some { st with modules := mdbPut st.modules m { tb with datamap := p.2.getD tb.datamap } })

/-- Model of `db_insert_rootmap`: put into the module's rootmap. -/
def db_insert_rootmap (s : Option Storage) (m : GModule) (key : Int) (value : String) : Int × Option Storage :=
  match s with
  | none => (-1, none)
  | some st =>
    match mdbGet st.modules m with
    | none => (-1, some st)
    | some tb =>
      let p := ins_is32 (some tb.rootmap) key value
      (p.1, some { st with modules := mdbPut st.modules m { tb with rootmap := p.2.getD tb.rootmap } })

/-- Model of `db_insert_root`: put into the module's root table,
replacing any existing binding. -/
def db_insert_root (s : Option Storage) (m : GModule) (key : Int) (value : Int) : Int × Option Storage :=
  match s with
  | none => (-1, none)
  | some st =>
    match mdbGet st.modules m with
    | none => (-1, some st)
    | some tb =>
      let p := ins_ii32 (some tb.root) key value
      (p.1, some { st with modules := mdbPut st.modules m { tb with root := p.2.getD tb.root } })

/-- Model of `db_insert_hits`: accumulate into the module's hits
table. -/
def db_insert_hits (s : Option Storage) (m : GModule) (key : Int) (inc : Int) : Int × Option Storage :=
  match s with
  | none => (-1, none)
  | some st =>
    match mdbGet st.modules m with
    | none => (-1, some st)
    | some tb =>
      let p := inc_ii32 (some tb.hits) key inc
      (p.1, some { st with modules := mdbPut st.modules m { tb with hits := p.2.getD tb.hits } })

/-- Model of `db_insert_visitor`: accumulate into the module's visitors
table. -/
def db_insert_visitor (s : Option Storage) (m : GModule) (key : Int) (inc : Int) : Int × Option Storage :=
  match s with
  | none => (-1, none)
  | some st =>
    match mdbGet st.modules m with
    | none => (-1, some st)
    | some tb =>
      let p := inc_ii32 (some tb.visitors) key inc
      (p.1, some { st with modules := mdbPut st.modules m { tb with visitors := p.2.getD tb.visitors } })

/-- Model of `db_insert_bw`: accumulate into the module's bandwidth
table. -/
def db_insert_bw (s : Option Storage) (m : GModule) (key : Int) (inc : Nat) : Int × Option Storage :=
  match s with
  | none => (-1, none)
  | some st =>
    match mdbGet st.modules m with
    | none => (-1, some st)
    | some tb =>
      let p := inc_iu64 (some tb.bw) key inc
      (p.1, some { st with modules := mdbPut st.modules m { tb with bw := p.2.getD tb.bw } })

/-- Model of `db_insert_cumts`: accumulate into the module's
cumulative-time table. -/
def db_insert_cumts (s : Option Storage) (m : GModule) (key : Int) (inc : Nat) : Int × Option Storage :=
  match s with
  | none => (-1, none)
  | some st =>
    match mdbGet st.modules m with
    | none => (-1, some st)
    | some tb =>
      let p := inc_iu64 (some tb.cumts) key inc
      (p.1, some { st with modules := mdbPut st.modules m { tb with cumts := p.2.getD tb.cumts } })

/-- Model of `db_insert_maxts`: read the current uint64 of the key (`0`
when absent) and overwrite it only when the candidate is strictly
greater. -/
def db_insert_maxts (s : Option Storage) (m : GModule) (key : Int) (value : Nat) : Int × Option Storage :=
  match s with
  | none => (-1, none)
  | some st =>
    match mdbGet st.modules m with
    | none => (-1, some st)
    | some tb =>
      let curvalue := get_iu64 (some tb.maxts) key
      if curvalue < value then
        let p := ins_iu64 (some tb.maxts) key value
        (0, some { st with modules := mdbPut st.modules m { tb with maxts := p.2.getD tb.maxts } })
      else (0, some st)

/-- Model of `db_insert_method`: put into the module's methods table. -/
def db_insert_method (s : Option Storage) (m : GModule) (key : Int) (value : String) : Int × Option Storage :=
  match s with
  | none => (-1, none)
  | some st =>
    match mdbGet st.modules m with
    | none => (-1, some st)
    | some tb =>
      let p := ins_is32 (some tb.methods) key value
      (p.1, some { st with modules := mdbPut st.modules m { tb with methods := p.2.getD tb.methods } })

/-- Model of `db_insert_protocol`: put into the module's protocols
table. -/
def db_insert_protocol (s : Option Storage) (m : GModule) (key : Int) (value : String) : Int × Option Storage :=
  match s with
  | none => (-1, none)
  | some st =>
    match mdbGet st.modules m with
    | none => (-1, some st)
    | some tb =>
      let p := ins_is32 (some tb.protocols) key value
      (p.1, some { st with modules := mdbPut st.modules m { tb with protocols := p.2.getD tb.protocols } })

/-- Model of `db_insert_meta_data`: accumulate into the module's
metadata table. -/
def db_insert_meta_data (s : Option Storage) (m : GModule) (key : String) (value : Nat) : Int × Option Storage :=
  match s with
  | none => (-1, none)
  | some st =>
    match mdbGet st.modules m with
    | none => (-1, some st)
    | some tb =>
      let p := inc_su64 (some tb.metadata) key value
      (p.1, some { st with modules := mdbPut st.modules m { tb with metadata := p.2.getD tb.metadata } })

/-- Model of `db_get_hostname`: lookup in the global hostnames table. -/
def db_get_hostname (s : Option Storage) (host : String) : Option String :=
  match s with
  | none => none
  | some st => get_ss32 (some st.hostnames) host

/-- Model of `db_get_datamap`. -/
def db_get_datamap (s : Option Storage) (m : GModule) (key : Int) : Option String :=
  match s with
  | none => none
  | some st =>
    match mdbGet st.modules m with
    | none => none
    | some tb => get_is32 (some tb.datamap) key

/-- Model of `db_get_hits`: `-1` when the table resolves to `NULL`. -/
def db_get_hits (s : Option Storage) (m : GModule) (key : Int) : Int :=
  match s with
  | none => -1
  | some st =>
    match mdbGet st.modules m with
    | none => -1
    | some tb => get_ii32 (some tb.hits) key

/-- Model of `db_get_bw`: `0` when the table resolves to `NULL`. -/
def db_get_bw (s : Option Storage) (m : GModule) (key : Int) : Nat :=
  match s with
  | none => 0
  | some st =>
    match mdbGet st.modules m with
    | none => 0
    | some tb => get_iu64 (some tb.bw) key

/-- Model of `db_get_cumts`: `0` when the table resolves to `NULL`. -/
def db_get_cumts (s : Option Storage) (m : GModule) (key : Int) : Nat :=
  match s with
  | none => 0
  | some st =>
    match mdbGet st.modules m with
    | none => 0
    | some tb => get_iu64 (some tb.cumts) key

/-- Model of `db_get_maxts`: `0` when the table resolves to `NULL`. -/
def db_get_maxts (s : Option Storage) (m : GModule) (key : Int) : Nat :=
  match s with
  | none => 0
  | some st =>
    match mdbGet st.modules m with
    | none => 0
    | some tb => get_iu64 (some tb.maxts) key

/-- Model of `db_get_visitors`: `-1` when the table resolves to
`NULL`. -/
def db_get_visitors (s : Option Storage) (m : GModule) (key : Int) : Int :=
  match s with
  | none => -1
  | some st =>
    match mdbGet st.modules m with
    | none => -1
    | some tb => get_ii32 (some tb.visitors) key

/-- Model of `db_get_method`. -/
def db_get_method (s : Option Storage) (m : GModule) (key : Int) : Option String :=
  match s with
  | none => none
  | some st =>
    match mdbGet st.modules m with
    | none => none
    | some tb => get_is32 (some tb.methods) key

/-- Model of `db_get_protocol`. -/
def db_get_protocol (s : Option Storage) (m : GModule) (key : Int) : Option String :=
  match s with
  | none => none
  | some st =>
    match mdbGet st.modules m with
    | none => none
    | some tb => get_is32 (some tb.protocols) key

/-- Model of `db_get_root`: read the root id of the key from the root
table (`get_ii32`, so `0` both when absent and when `0` was stored);
return `none` on a zero root id, else look the id up in the rootmap. -/
def db_get_root (s : Option Storage) (m : GModule) (key : Int) : Option String :=
  match s with
  | none => none
  | some st =>
    match mdbGet st.modules m with
    | none => none
    | some tb =>
      let root_key := get_ii32 (some tb.root) key
      if root_key = 0 then none
      else get_is32 (some tb.rootmap) root_key

/-- Model of `db_get_size_uniqmap`: `0` when the table resolves to
`NULL`. -/
def db_get_size_uniqmap (s : Option Storage) (m : GModule) : Nat :=
  match s with
  | none => 0
  | some st =>
    match mdbGet st.modules m with
    | none => 0
    | some tb => db_get_size tb.uniqmap

/-- Model of `db_get_size_datamap`: `0` when the table resolves to
`NULL`. -/
def db_get_size_datamap (s : Option Storage) (m : GModule) : Nat :=
  match s with
  | none => 0
  | some st =>
    match mdbGet st.modules m with
    | none => 0
    | some tb => db_get_size tb.datamap

/-- Export value type tag (`raw_data->type` set to `INTEGER` or
`STRING`). -/
inductive GRawDataType
  | INTEGER
  | STRING
deriving DecidableEq

/-- Exported value: the `union { char *svalue; int ivalue; }` of a
`GRawDataItem`. -/
inductive GRawVal
  | ivalue (v : Int)
  | svalue (v : String)
deriving DecidableEq

/-- Numeric view of an exported value (`ivalue` union member). -/
def GRawVal.toInt : GRawVal → Int
  | .ivalue v => v
  | .svalue _ => 0

/-- String view of an exported value (`svalue` union member). -/
def GRawVal.toStr : GRawVal → String
  | .svalue v => v
  | .ivalue _ => ""

/-- One exported key/value item. -/
structure GRawItem where
  key : Int
  value : GRawVal
deriving DecidableEq

/-- Exported array: module tag, value type, entry count queried up
front, and the scanned-then-sorted items. -/
structure GRawData where
  module : GModule
  type : GRawDataType
  size : Nat
  items : List GRawItem
deriving DecidableEq

/-- Numeric order on exported items used by the numeric-export sort. -/
def rawNumLe (a b : GRawItem) : Prop := a.value.toInt ≤ b.value.toInt

instance : DecidableRel rawNumLe := fun a b =>
  inferInstanceAs (Decidable (a.value.toInt ≤ b.value.toInt))

instance : IsTotal GRawItem rawNumLe := ⟨fun a b => le_total a.value.toInt b.value.toInt⟩

instance : IsTrans GRawItem rawNumLe := ⟨fun _ _ _ h h' => le_trans h h'⟩

/-- Lexicographic order on exported items used by the string-export
sort. -/
def rawStrLe (a b : GRawItem) : Prop := a.value.toStr ≤ b.value.toStr

instance : DecidableRel rawStrLe := fun a b =>
  inferInstanceAs (Decidable (a.value.toStr ≤ b.value.toStr))

instance : IsTotal GRawItem rawStrLe := ⟨fun a b => le_total a.value.toStr b.value.toStr⟩

instance : IsTrans GRawItem rawStrLe := ⟨fun _ _ _ h h' => le_trans h h'⟩

/-- Modelled from the spec: `sort_raw_num_data` is defined in `sort.c`,
which is not under `src`; per the spec a type-appropriate numeric-by-value
sort is applied to the exported array as a pure post-processing step
("numeric ascending/descending as configured").  It is modelled as a
sort of the items by their numeric value. -/
def sort_raw_num_data (raw : GRawData) : GRawData :=
  { raw with items := List.insertionSort rawNumLe raw.items }

/-- Modelled from the spec: `sort_raw_str_data` is defined in `sort.c`,
which is not under `src`; per the spec a lexicographic string-by-value
sort is applied to the exported array as a pure post-processing step.  It
is modelled as a sort of the items by their string value. -/
def sort_raw_str_data (raw : GRawData) : GRawData :=
  { raw with items := List.insertionSort rawStrLe raw.items }

/-- Model of `parse_raw_num_data`: query the hits table's entry count,
cursor-scan every entry into items (`MDB_NEXT` walks all bindings), tag
the array `INTEGER`, then sort. -/
def parse_raw_num_data (st : Storage) (m : GModule) : Option GRawData :=
  match mdbGet st.modules m with
  | none => none
  | some tb =>
    let ht_size := db_get_size tb.hits
    let scanned := tb.hits.map (fun kv => GRawItem.mk kv.1 (.ivalue kv.2))
    some (sort_raw_num_data { module := m, type := .INTEGER, size := ht_size, items := scanned })

/-- Model of `parse_raw_str_data`: query the datamap's entry count,
cursor-scan every entry into items, tag the array `STRING`, then
sort. -/
def parse_raw_str_data (st : Storage) (m : GModule) : Option GRawData :=
  match mdbGet st.modules m with
  | none => none
  | some tb =>
    let ht_size := db_get_size tb.datamap
    let scanned := tb.datamap.map (fun kv => GRawItem.mk kv.1 (.svalue kv.2))
    some (sort_raw_str_data { module := m, type := .STRING, size := ht_size, items := scanned })

/-- Model of `db_parse_raw_data`: the `VISITORS` module exports its
string datamap, every other module exports the numeric hits table.  The
source dereferences `db_storage` unconditionally here (for
`mdb_env_sync`, a no-op in the pure model), so the function is modelled
only on initialized storage. -/
def db_parse_raw_data (st : Storage) (m : GModule) : Option GRawData :=
  match m with
  | .VISITORS => parse_raw_str_data st m
  | _ => parse_raw_num_data st m

/-!
Byte-level codec model for the string-keyed writers.

A C string is modelled as the list of its bytes before the terminator
(`strlen` is its length).  `ins_si32` passes `key.mv_size = strlen (k)`,
so a string key is stored as exactly its raw bytes with no terminator;
`ins_is32` passes `data.mv_size = strlen (value) + 1`, so a string value
is stored with its terminator included.  The engine compares keys as raw
byte spans (pointer plus length), modelled as lists of bytes.
-/

/-- A C string: its bytes before the `NUL` terminator. -/
abbrev CStr := List UInt8

/-- Model of `strlen`. -/
def strlen (s : CStr) : Nat := s.length

/-- Key encoding of `ins_si32`/`get_si32`: `key.mv_data = k`,
`key.mv_size = strlen (k)` — the raw bytes, no terminator. -/
def encodeStrKey (k : CStr) : List UInt8 := k

/-- Value encoding of `ins_is32`: `data.mv_data = value`,
`data.mv_size = strlen (value) + 1` — the bytes plus the terminator. -/
def encodeStrVal (v : CStr) : List UInt8 := v ++ [0]

/-- A table as the engine sees it: byte-span keys to byte-span
values. -/
abbrev ByteTable := List (List UInt8 × List UInt8)

/-- Byte-level `mdb_put` with flags `0`. -/
def bytePut (t : ByteTable) (k v : List UInt8) : ByteTable := mdbPut t k v

/-- Byte-level `mdb_get`. -/
def byteGet (t : ByteTable) (k : List UInt8) : Option (List UInt8) := mdbGet t k

/-!
Basic facts about the association-list model of `mdb_get`/`mdb_put`.
-/

theorem mdbGet_mdbPut_self {κ ν : Type} [DecidableEq κ] (t : List (κ × ν)) (k : κ) (v : ν) :
    mdbGet (mdbPut t k v) k = some v := by
  induction t with
  | nil => simp [mdbGet, mdbPut]
  | cons p t ih =>
    obtain ⟨k', v'⟩ := p
    by_cases h : k = k' <;> simp [mdbGet, mdbPut, h, ih]

theorem mdbGet_mdbPut_ne {κ ν : Type} [DecidableEq κ] (t : List (κ × ν)) {q k : κ} (v : ν)
    (h : q ≠ k) : mdbGet (mdbPut t k v) q = mdbGet t q := by
  induction t with
  | nil => simp [mdbGet, mdbPut, h]
  | cons p t ih =>
    obtain ⟨k', v'⟩ := p
    by_cases hk : k = k'
    · subst hk
      simp [mdbGet, mdbPut, h]
    · by_cases hq : q = k' <;> simp [mdbGet, mdbPut, hk, hq, ih]

theorem length_mdbPut_absent {κ ν : Type} [DecidableEq κ] (t : List (κ × ν)) {k : κ} (v : ν)
    (h : mdbGet t k = none) : (mdbPut t k v).length = t.length + 1 := by
  induction t with
  | nil => simp [mdbPut]
  | cons p t ih =>
    obtain ⟨k', v'⟩ := p
    by_cases hk : k = k'
    · simp [mdbGet, hk] at h
    · simp [mdbGet, hk] at h
      simp [mdbPut, hk, ih h]

theorem length_mdbPut_present {κ ν : Type} [DecidableEq κ] (t : List (κ × ν)) {k : κ} (v w : ν)
    (h : mdbGet t k = some w) : (mdbPut t k v).length = t.length := by
  induction t with
  | nil => simp [mdbGet] at h
  | cons p t ih =>
    obtain ⟨k', v'⟩ := p
    by_cases hk : k = k'
    · simp [mdbPut, hk]
    · simp [mdbGet, hk] at h
      simp [mdbPut, hk, ih h]

/-- Value chosen by `ins_si32_ai`: `size > 0 ? size + 1 : 1` always
equals `size + 1`. -/
theorem ai_value (size : Nat) :
    (if size > 0 then (size : Int) + 1 else 1) = (size : Int) + 1 := by
  cases size <;> simp

/-!
Fixtures used by the concrete witnesses and counterexamples.
-/

/-- Concrete metric tables used by the witnesses. -/
def tablesA : ModuleTables :=
  { emptyTables with
    keymap := [("a", 5)]
    uniqmap := [("a", 5)]
    root := [(1, 0), (2, 7)]
    rootmap := [(7, "root7")]
    hits := [(1, 3)]
    bw := [(1, 4)]
    maxts := [(1, 10)] }

/-- Concrete storage used by the witnesses: one registered module. -/
def storageA : Storage :=
  { agent_keys := [("a", 5)]
    agent_vals := []
    hostnames := []
    unique_keys := [("a", 5)]
    modules := [(GModule.REQUESTS, tablesA)] }

/-- C1, counterexample: with the uniqmap of the registered module
holding `"a" ↦ 5`, `db_insert_uniqmap` returns `0`, not the stored value
`5`, so the claim that every one of the four interning inserts returns
the value currently stored for a present key is false. -/
theorem claim_C1_counterexample :
    mdbGet storageA.modules GModule.REQUESTS = some tablesA ∧
    mdbGet tablesA.uniqmap "a" = some 5 ∧
    (db_insert_uniqmap (some storageA) GModule.REQUESTS "a").1 = 0 ∧
    (0 : Int) ≠ 5 := by
  refine ⟨rfl, rfl, rfl, by decide⟩

/-- C1, amended: for a string key already present (with a stored value
other than the `-1` sentinel, as interning always stores),
`db_insert_unique_key`, `db_insert_agent_key` and `db_insert_keymap`
return the value currently stored and leave the storage unmodified;
`db_insert_uniqmap` also leaves the storage unmodified but returns the
literal `0`.  For an absent key, each of the four performs the
auto-increment insert. -/
theorem claim_C1_insert_if_absent :
    (∀ st k v, mdbGet st.unique_keys k = some v → v ≠ -1 →
      db_insert_unique_key (some st) k = (v, some st)) ∧
    (∀ st k v, mdbGet st.agent_keys k = some v → v ≠ -1 →
      db_insert_agent_key (some st) k = (v, some st)) ∧
    (∀ st m tb k v, mdbGet st.modules m = some tb → mdbGet tb.keymap k = some v → v ≠ -1 →
      db_insert_keymap (some st) m k = (v, some st)) ∧
    (∀ st m tb k v, mdbGet st.modules m = some tb → mdbGet tb.uniqmap k = some v → v ≠ -1 →
      db_insert_uniqmap (some st) m k = (0, some st)) ∧
    (∀ st k, mdbGet st.unique_keys k = none →
      (db_insert_unique_key (some st) k).2 =
        some { st with unique_keys := mdbPut st.unique_keys k ((st.unique_keys.length : Int) + 1) }) ∧
    (∀ st k, mdbGet st.agent_keys k = none →
      (db_insert_agent_key (some st) k).2 =
        some { st with agent_keys := mdbPut st.agent_keys k ((st.agent_keys.length : Int) + 1) }) ∧
    (∀ st m tb k, mdbGet st.modules m = some tb → mdbGet tb.keymap k = none →
      (db_insert_keymap (some st) m k).2 =
        some { st with modules := mdbPut st.modules m
                         { tb with keymap := mdbPut tb.keymap k ((tb.keymap.length : Int) + 1) } }) ∧
    (∀ st m tb k, mdbGet st.modules m = some tb → mdbGet tb.uniqmap k = none →
      (db_insert_uniqmap (some st) m k).2 =
        some { st with modules := mdbPut st.modules m
                         { tb with uniqmap := mdbPut tb.uniqmap k ((tb.uniqmap.length : Int) + 1) } }) := by
  refine ⟨?_, ?_, ?_, ?_, ?_, ?_, ?_, ?_⟩
  · intro st k v h hv
    simp [db_insert_unique_key, get_si32, h, hv]
  · intro st k v h hv
    simp [db_insert_agent_key, get_si32, h, hv]
  · intro st m tb k v hm h hv
    simp [db_insert_keymap, get_si32, hm, h, hv]
  · intro st m tb k v hm h hv
    simp [db_insert_uniqmap, get_si32, hm, h, hv]
  · intro st k h
    simp [db_insert_unique_key, get_si32, ins_si32_ai, ins_si32, db_get_size, ai_value, h]
  · intro st k h
    simp [db_insert_agent_key, get_si32, ins_si32_ai, ins_si32, db_get_size, ai_value, h]
  · intro st m tb k hm h
    simp [db_insert_keymap, get_si32, ins_si32_ai, ins_si32, db_get_size, ai_value, hm, h]
  · intro st m tb k hm h
    simp [db_insert_uniqmap, get_si32, ins_si32_ai, ins_si32, db_get_size, ai_value, hm, h]

/-- C1, witness: the amended theorem instantiated on `storageA` — the
present key `"a"` (stored id `5`) is returned unchanged by
`db_insert_keymap`, and the absent key `"b"` is inserted with id
`length + 1 = 2`. -/
theorem claim_C1_witness :
    db_insert_keymap (some storageA) GModule.REQUESTS "a" = (5, some storageA) ∧
    (db_insert_keymap (some storageA) GModule.REQUESTS "b").2 =
      some { storageA with modules := mdbPut storageA.modules GModule.REQUESTS
                             { tablesA with keymap := mdbPut tablesA.keymap "b" ((tablesA.keymap.length : Int) + 1) } } :=
  ⟨claim_C1_insert_if_absent.2.2.1 storageA GModule.REQUESTS tablesA "a" 5 rfl rfl (by decide),
   claim_C1_insert_if_absent.2.2.2.2.2.2.1 storageA GModule.REQUESTS tablesA "b" rfl rfl⟩

/-!
Serial accumulation (claim C2): folds of the counter inserts.
-/

/-- Serial `db_insert_hits` calls on one key. -/
def hitsCalls (s : Option Storage) (m : GModule) (k : Int) (ds : List Int) : Option Storage :=
  ds.foldl (fun st d => (db_insert_hits st m k d).2) s

/-- Serial `db_insert_bw` calls on one key. -/
def bwCalls (s : Option Storage) (m : GModule) (k : Int) (ds : List Nat) : Option Storage :=
  ds.foldl (fun st d => (db_insert_bw st m k d).2) s

/-- Serial `db_insert_meta_data` calls on one key. -/
def metaCalls (s : Option Storage) (m : GModule) (k : String) (ds : List Nat) : Option Storage :=
  ds.foldl (fun st d => (db_insert_meta_data st m k d).2) s

/-- Table-level effect of one `inc_ii32`-style step, iterated: starting
from a key bound to `cur`, the binding after the folds is `cur` plus the
sum of the increments. -/
theorem foldl_inc_present {κ : Type} [DecidableEq κ] (k : κ) (ds : List Int) :
    ∀ (t : List (κ × Int)) (cur : Int), mdbGet t k = some cur →
      mdbGet (List.foldl
        (fun t d => mdbPut t k (match mdbGet t k with | some c => c + d | none => d)) t ds) k =
        some (cur + ds.sum) := by
  induction ds with
  | nil => intro t cur h; simpa using h
  | cons d rest ih =>
    intro t cur h
    have hstep : mdbGet (mdbPut t k
        (match mdbGet t k with | some c => c + d | none => d)) k = some (cur + d) := by
      rw [h]
      exact mdbGet_mdbPut_self t k (cur + d)
    have := ih _ (cur + d) hstep
    simpa [add_assoc] using this

/-- Table-level effect of one `inc_iu64`/`inc_su64`-style step,
iterated: uint64 accumulation reduces modulo `2 ^ 64` exactly where the C
addition wraps. -/
theorem foldl_incU_present {κ : Type} [DecidableEq κ] (k : κ) (ds : List Nat) :
    ∀ (t : List (κ × Nat)) (cur : Nat), cur < U64 → mdbGet t k = some cur →
      mdbGet (List.foldl
        (fun t d => mdbPut t k (match mdbGet t k with | some c => (c + d) % U64 | none => d)) t ds) k =
        some ((cur + ds.sum) % U64) := by
  induction ds with
  | nil =>
    intro t cur hlt h
    simpa [Nat.mod_eq_of_lt hlt] using h
  | cons d rest ih =>
    intro t cur hlt h
    have hstep : mdbGet (mdbPut t k
        (match mdbGet t k with | some c => (c + d) % U64 | none => d)) k =
        some ((cur + d) % U64) := by
      rw [h]
      exact mdbGet_mdbPut_self t k ((cur + d) % U64)
    have hlt' : (cur + d) % U64 < U64 := Nat.mod_lt _ (by decide)
    have hrec := ih _ _ hlt' hstep
    simp only [List.foldl_cons, List.sum_cons]
    rw [hrec, Nat.mod_add_mod, add_assoc]

/-- Storage-level shape of iterated `db_insert_hits` on a registered
module: the module stays registered and its hits table is the table-level
fold. -/
theorem hitsCalls_some (m : GModule) (k : Int) (ds : List Int) :
    ∀ (st : Storage) (tb : ModuleTables), mdbGet st.modules m = some tb →
      ∃ st' tb', hitsCalls (some st) m k ds = some st' ∧
        mdbGet st'.modules m = some tb' ∧
        tb'.hits = List.foldl
          (fun t d => mdbPut t k (match mdbGet t k with | some c => c + d | none => d))
          tb.hits ds := by
  induction ds with
  | nil => intro st tb hm; exact ⟨st, tb, rfl, hm, rfl⟩
  | cons d rest ih =>
    intro st tb hm
    have hstep : (db_insert_hits (some st) m k d).2 =
        some { st with modules := mdbPut st.modules m { tb with hits := mdbPut tb.hits k (match mdbGet tb.hits k with | some c => c + d | none => d) } } := by
      simp [db_insert_hits, inc_ii32, hm]
    obtain ⟨st', tb', h1, h2, h3⟩ := ih
      { st with modules := mdbPut st.modules m { tb with hits := mdbPut tb.hits k (match mdbGet tb.hits k with | some c => c + d | none => d) } }
      { tb with hits := mdbPut tb.hits k (match mdbGet tb.hits k with | some c => c + d | none => d) }
      (mdbGet_mdbPut_self st.modules m _)
    refine ⟨st', tb', ?_, h2, ?_⟩
    · simpa [hitsCalls, hstep] using h1
    · simpa using h3

/-- Storage-level shape of iterated `db_insert_bw` on a registered
module. -/
theorem bwCalls_some (m : GModule) (k : Int) (ds : List Nat) :
    ∀ (st : Storage) (tb : ModuleTables), mdbGet st.modules m = some tb →
      ∃ st' tb', bwCalls (some st) m k ds = some st' ∧
        mdbGet st'.modules m = some tb' ∧
        tb'.bw = List.foldl
          (fun t d => mdbPut t k (match mdbGet t k with | some c => (c + d) % U64 | none => d))
          tb.bw ds := by
  induction ds with
  | nil => intro st tb hm; exact ⟨st, tb, rfl, hm, rfl⟩
  | cons d rest ih =>
    intro st tb hm
    have hstep : (db_insert_bw (some st) m k d).2 =
        some { st with modules := mdbPut st.modules m { tb with bw := mdbPut tb.bw k (match mdbGet tb.bw k with | some c => (c + d) % U64 | none => d) } } := by
      simp [db_insert_bw, inc_iu64, hm]
    obtain ⟨st', tb', h1, h2, h3⟩ := ih
      { st with modules := mdbPut st.modules m { tb with bw := mdbPut tb.bw k (match mdbGet tb.bw k with | some c => (c + d) % U64 | none => d) } }
      { tb with bw := mdbPut tb.bw k (match mdbGet tb.bw k with | some c => (c + d) % U64 | none => d) }
      (mdbGet_mdbPut_self st.modules m _)
    refine ⟨st', tb', ?_, h2, ?_⟩
    · simpa [bwCalls, hstep] using h1
    · simpa using h3

/-- Storage-level shape of iterated `db_insert_meta_data` on a
registered module. -/
theorem metaCalls_some (m : GModule) (k : String) (ds : List Nat) :
    ∀ (st : Storage) (tb : ModuleTables), mdbGet st.modules m = some tb →
      ∃ st' tb', metaCalls (some st) m k ds = some st' ∧
        mdbGet st'.modules m = some tb' ∧
        tb'.metadata = List.foldl
          (fun t d => mdbPut t k (match mdbGet t k with | some c => (c + d) % U64 | none => d))
          tb.metadata ds := by
  induction ds with
  | nil => intro st tb hm; exact ⟨st, tb, rfl, hm, rfl⟩
  | cons d rest ih =>
    intro st tb hm
    have hstep : (db_insert_meta_data (some st) m k d).2 =
        some { st with modules := mdbPut st.modules m { tb with metadata := mdbPut tb.metadata k (match mdbGet tb.metadata k with | some c => (c + d) % U64 | none => d) } } := by
      simp [db_insert_meta_data, inc_su64, hm]
    obtain ⟨st', tb', h1, h2, h3⟩ := ih
      { st with modules := mdbPut st.modules m { tb with metadata := mdbPut tb.metadata k (match mdbGet tb.metadata k with | some c => (c + d) % U64 | none => d) } }
      { tb with metadata := mdbPut tb.metadata k (match mdbGet tb.metadata k with | some c => (c + d) % U64 | none => d) }
      (mdbGet_mdbPut_self st.modules m _)
    refine ⟨st', tb', ?_, h2, ?_⟩
    · simpa [metaCalls, hstep] using h1
    · simpa using h3

/-- C2: serial increments `d1..dn` on one key accumulate: the stored
value afterwards is the sum of the increments when the key was initially
absent, and the prior stored value plus the sum otherwise.  This holds
for the int counters (`db_insert_hits`; `db_insert_visitor` is the same
`inc_ii32` on another table) and, with uint64 wrap-around arithmetic, for
the uint64 counters (`db_insert_bw`; `db_insert_cumts` is the same
`inc_iu64`) and the string-keyed `db_insert_meta_data`. -/
theorem claim_C2_accumulate :
    (∀ st m tb k ds, mdbGet st.modules m = some tb → mdbGet tb.hits k = none →
      db_get_hits (hitsCalls (some st) m k ds) m k = ds.sum) ∧
    (∀ st m tb k ds v0, mdbGet st.modules m = some tb → mdbGet tb.hits k = some v0 →
      db_get_hits (hitsCalls (some st) m k ds) m k = v0 + ds.sum) ∧
    (∀ st m tb k ds, mdbGet st.modules m = some tb → mdbGet tb.bw k = none →
      (∀ d ∈ ds, d < U64) →
      db_get_bw (bwCalls (some st) m k ds) m k = ds.sum % U64) ∧
    (∀ st m tb k ds v0, mdbGet st.modules m = some tb → mdbGet tb.bw k = some v0 → v0 < U64 →
      db_get_bw (bwCalls (some st) m k ds) m k = (v0 + ds.sum) % U64) ∧
    (∀ st m tb k ds, mdbGet st.modules m = some tb → mdbGet tb.metadata k = none →
      (∀ d ∈ ds, d < U64) →
      (metaCalls (some st) m k ds).elim 0
        (fun st' => (mdbGet st'.modules m).elim 0 (fun tb' => (mdbGet tb'.metadata k).getD 0)) =
        ds.sum % U64) := by
  refine ⟨?_, ?_, ?_, ?_, ?_⟩
  · intro st m tb k ds hm habs
    obtain ⟨st', tb', h1, h2, h3⟩ := hitsCalls_some m k ds st tb hm
    cases ds with
    | nil => simp [hitsCalls, db_get_hits, hm, get_ii32, habs]
    | cons d rest =>
      have hfirst : mdbGet (mdbPut tb.hits k
          (match mdbGet tb.hits k with | some c => c + d | none => d)) k = some d := by
        rw [habs]
        exact mdbGet_mdbPut_self tb.hits k d
      have hv := foldl_inc_present k rest _ d hfirst
      rw [h1]
      simp only [db_get_hits, h2, get_ii32]
      rw [h3]
      simp only [List.foldl_cons]
      rw [hv]
      simp
  · intro st m tb k ds v0 hm hpres
    obtain ⟨st', tb', h1, h2, h3⟩ := hitsCalls_some m k ds st tb hm
    have hv := foldl_inc_present k ds _ v0 hpres
    rw [h1]
    simp only [db_get_hits, h2, get_ii32]
    rw [h3, hv]
    simp
  · intro st m tb k ds hm habs hds
    obtain ⟨st', tb', h1, h2, h3⟩ := bwCalls_some m k ds st tb hm
    cases ds with
    | nil => simp [bwCalls, db_get_bw, hm, get_iu64, habs]
    | cons d rest =>
      have hfirst : mdbGet (mdbPut tb.bw k
          (match mdbGet tb.bw k with | some c => (c + d) % U64 | none => d)) k = some d := by
        rw [habs]
        exact mdbGet_mdbPut_self tb.bw k d
      have hv := foldl_incU_present k rest _ d (hds d (by simp)) hfirst
      rw [h1]
      simp only [db_get_bw, h2, get_iu64]
      rw [h3]
      simp only [List.foldl_cons]
      rw [hv]
      simp
  · intro st m tb k ds v0 hm hpres hlt
    obtain ⟨st', tb', h1, h2, h3⟩ := bwCalls_some m k ds st tb hm
    have hv := foldl_incU_present k ds _ v0 hlt hpres
    rw [h1]
    simp only [db_get_bw, h2, get_iu64]
    rw [h3, hv]
    simp
  · intro st m tb k ds hm habs hds
    obtain ⟨st', tb', h1, h2, h3⟩ := metaCalls_some m k ds st tb hm
    cases ds with
    | nil => simp [metaCalls, hm, habs]
    | cons d rest =>
      have hfirst : mdbGet (mdbPut tb.metadata k
          (match mdbGet tb.metadata k with | some c => (c + d) % U64 | none => d)) k = some d := by
        rw [habs]
        exact mdbGet_mdbPut_self tb.metadata k d
      have hv := foldl_incU_present k rest _ d (hds d (by simp)) hfirst
      rw [h1]
      simp only [Option.elim, h2]
      rw [h3]
      simp only [List.foldl_cons]
      rw [hv]
      simp

/-- C2, witness: on `storageA`, key `1` of the hits table holds `3`; two
increments `2` and `5` leave `10`.  Key `2` of the bandwidth table is
absent; increments `7` and `9` leave `16`. -/
theorem claim_C2_witness :
    db_get_hits (hitsCalls (some storageA) GModule.REQUESTS 1 [2, 5]) GModule.REQUESTS 1 = 10 ∧
    db_get_bw (bwCalls (some storageA) GModule.REQUESTS 2 [7, 9]) GModule.REQUESTS 2 = 16 := by
  constructor
  · have h := claim_C2_accumulate.2.1 storageA GModule.REQUESTS tablesA 1 [2, 5] 3 rfl rfl
    simpa using h
  · have h := claim_C2_accumulate.2.2.1 storageA GModule.REQUESTS tablesA 2 [7, 9] rfl rfl
      (by intro d hd; fin_cases hd <;> simp [U64])
    simpa [U64] using h

/-!
Interning (claims C3, C4): fresh ids and idempotence.
-/

/-- Storage after `ginit_storage` with the usual module list. -/
def storageB : Storage := ginit_storage [GModule.VISITORS, GModule.REQUESTS]

/-- C3: interning a key with no id assigns and returns
`table_size + 1`: on an initially empty keymap the first fresh key gets
id `1` and a second, distinct fresh key gets id `2`; likewise for the
global unique-keys table. -/
theorem claim_C3_intern_fresh :
    (∀ st m tb k, mdbGet st.modules m = some tb → mdbGet tb.keymap k = none →
      (db_insert_keymap (some st) m k).1 = (db_get_size tb.keymap : Int) + 1) ∧
    (∀ st k, mdbGet st.unique_keys k = none →
      (db_insert_unique_key (some st) k).1 = (db_get_size st.unique_keys : Int) + 1) ∧
    (∀ st m tb k1 k2, mdbGet st.modules m = some tb → tb.keymap = [] → k1 ≠ k2 →
      (db_insert_keymap (some st) m k1).1 = 1 ∧
      (db_insert_keymap (db_insert_keymap (some st) m k1).2 m k2).1 = 2) := by
  refine ⟨?_, ?_, ?_⟩
  · intro st m tb k hm habs
    simp [db_insert_keymap, get_si32, hm, habs, ins_si32_ai, ins_si32, db_get_size, ai_value]
  · intro st k habs
    simp [db_insert_unique_key, get_si32, habs, ins_si32_ai, ins_si32, db_get_size, ai_value]
  · intro st m tb k1 k2 hm hempty hne
    have hne' : k2 ≠ k1 := Ne.symm hne
    have h1 : db_insert_keymap (some st) m k1 =
        (1, some { st with modules := mdbPut st.modules m { tb with keymap := [(k1, 1)] } }) := by
      simp [db_insert_keymap, get_si32, hm, hempty, ins_si32_ai, ins_si32, db_get_size, mdbGet, mdbPut]
    refine ⟨by rw [h1], ?_⟩
    rw [h1]
    simp [db_insert_keymap, get_si32, mdbGet_mdbPut_self, ins_si32_ai, ins_si32, db_get_size,
      mdbGet, mdbPut, hne']

/-- C3, witness: on freshly initialized storage, interning `"firefox"`
then `"chrome"` into the `VISITORS` keymap yields ids `1` and `2`. -/
theorem claim_C3_witness :
    (db_insert_keymap (some storageB) GModule.VISITORS "firefox").1 = 1 ∧
    (db_insert_keymap (db_insert_keymap (some storageB) GModule.VISITORS "firefox").2
      GModule.VISITORS "chrome").1 = 2 :=
  claim_C3_intern_fresh.2.2 storageB GModule.VISITORS emptyTables "firefox" "chrome" rfl rfl
    (by decide)

/-- Serial `db_insert_keymap` calls on one module, arbitrary keys. -/
def keymapCalls (s : Option Storage) (m : GModule) (ks : List String) : Option Storage :=
  ks.foldl (fun st q => (db_insert_keymap st m q).2) s

/-- A keymap binding with a non-sentinel value survives any sequence of
further `db_insert_keymap` calls on the same module: a present key is
returned unchanged and a fresh key only appends. -/
theorem keymap_binding_preserved (m : GModule) (k : String) (i : Int) (hi : i ≠ -1)
    (ks : List String) :
    ∀ st tb, mdbGet st.modules m = some tb → mdbGet tb.keymap k = some i →
      ∃ st' tb', keymapCalls (some st) m ks = some st' ∧ mdbGet st'.modules m = some tb' ∧
        mdbGet tb'.keymap k = some i := by
  induction ks with
  | nil => intro st tb hm hk; exact ⟨st, tb, rfl, hm, hk⟩
  | cons q rest ih =>
    intro st tb hm hk
    by_cases hq : get_si32 (some tb.keymap) q = -1
    · have hqk : k ≠ q := by
        intro h
        rw [get_si32, ← h, hk] at hq
        simp at hq
        exact hi hq
      have hstep : (db_insert_keymap (some st) m q).2 =
          some { st with modules := mdbPut st.modules m { tb with keymap := mdbPut tb.keymap q ((tb.keymap.length : Int) + 1) } } := by
        simp [db_insert_keymap, hm, hq, ins_si32_ai, ins_si32, db_get_size, ai_value]
      have hk' : mdbGet (mdbPut tb.keymap q ((tb.keymap.length : Int) + 1)) k = some i := by
        rw [mdbGet_mdbPut_ne tb.keymap _ hqk]
        exact hk
      obtain ⟨st', tb', h1, h2, h3⟩ := ih
        { st with modules := mdbPut st.modules m { tb with keymap := mdbPut tb.keymap q ((tb.keymap.length : Int) + 1) } }
        { tb with keymap := mdbPut tb.keymap q ((tb.keymap.length : Int) + 1) }
        (mdbGet_mdbPut_self st.modules m _) hk'
      exact ⟨st', tb', by simpa [keymapCalls, hstep] using h1, h2, h3⟩
    · have hstep : (db_insert_keymap (some st) m q).2 = some st := by
        simp [db_insert_keymap, hm, hq]
      obtain ⟨st', tb', h1, h2, h3⟩ := ih st tb hm hk
      exact ⟨st', tb', by simpa [keymapCalls, hstep] using h1, h2, h3⟩

/-- C4: once a first `db_insert_keymap` call has assigned an id to a
fresh key, any later `db_insert_keymap` call on that key — after an
arbitrary sequence of serial interning calls on the same module — returns
that same id. -/
theorem claim_C4_intern_idempotent (st : Storage) (m : GModule) (tb : ModuleTables) (k : String)
    (hm : mdbGet st.modules m = some tb) (hk : mdbGet tb.keymap k = none) (ks : List String) :
    (db_insert_keymap (keymapCalls (db_insert_keymap (some st) m k).2 m ks) m k).1 =
      (db_insert_keymap (some st) m k).1 := by
  have h1 : db_insert_keymap (some st) m k =
      ((tb.keymap.length : Int) + 1,
        some { st with modules := mdbPut st.modules m { tb with keymap := mdbPut tb.keymap k ((tb.keymap.length : Int) + 1) } }) := by
    simp [db_insert_keymap, get_si32, hm, hk, ins_si32_ai, ins_si32, db_get_size, ai_value]
  have hi : (tb.keymap.length : Int) + 1 ≠ -1 := by
    have : (0 : Int) ≤ (tb.keymap.length : Int) := Int.natCast_nonneg _
    omega
  obtain ⟨st', tb', hcalls, h2, h3⟩ := keymap_binding_preserved m k _ hi ks
    { st with modules := mdbPut st.modules m { tb with keymap := mdbPut tb.keymap k ((tb.keymap.length : Int) + 1) } }
    { tb with keymap := mdbPut tb.keymap k ((tb.keymap.length : Int) + 1) }
    (mdbGet_mdbPut_self st.modules m _) (mdbGet_mdbPut_self tb.keymap k _)
  rw [h1, hcalls]
  simp [db_insert_keymap, get_si32, h2, h3, hi]

/-- C4, witness: interning `"firefox"` into fresh storage, then
`"chrome"`, `"firefox"` and `"x"`, a final intern of `"firefox"` still
returns its original id `1`. -/
theorem claim_C4_witness :
    (db_insert_keymap
      (keymapCalls (db_insert_keymap (some storageB) GModule.REQUESTS "firefox").2
        GModule.REQUESTS ["chrome", "firefox", "x"]) GModule.REQUESTS "firefox").1 = 1 :=
  (claim_C4_intern_idempotent storageB GModule.REQUESTS emptyTables "firefox" rfl rfl
    ["chrome", "firefox", "x"]).trans (by decide)

/-!
Max tracking (claim C5).
-/

/-- Serial `db_insert_maxts` calls on one key. -/
def maxtsCalls (s : Option Storage) (m : GModule) (k : Int) (cs : List Nat) : Option Storage :=
  cs.foldl (fun st c => (db_insert_maxts st m k c).2) s

/-- Storage-level effect of iterated `db_insert_maxts`: the stored value
(read as `0` when absent) becomes the running maximum of the start value
and all candidates. -/
theorem maxtsCalls_some (m : GModule) (k : Int) (cs : List Nat) :
    ∀ (st : Storage) (tb : ModuleTables), mdbGet st.modules m = some tb →
      ∃ st' tb', maxtsCalls (some st) m k cs = some st' ∧ mdbGet st'.modules m = some tb' ∧
        (mdbGet tb'.maxts k).getD 0 = cs.foldl max ((mdbGet tb.maxts k).getD 0) := by
  induction cs with
  | nil => intro st tb hm; exact ⟨st, tb, rfl, hm, rfl⟩
  | cons c rest ih =>
    intro st tb hm
    by_cases hc : get_iu64 (some tb.maxts) k < c
    · have hstep : (db_insert_maxts (some st) m k c).2 =
          some { st with modules := mdbPut st.modules m { tb with maxts := mdbPut tb.maxts k c } } := by
        simp [db_insert_maxts, hm, hc, ins_iu64]
      obtain ⟨st', tb', h1, h2, h3⟩ := ih
        { st with modules := mdbPut st.modules m { tb with maxts := mdbPut tb.maxts k c } }
        { tb with maxts := mdbPut tb.maxts k c }
        (mdbGet_mdbPut_self st.modules m _)
      refine ⟨st', tb', by simpa [maxtsCalls, hstep] using h1, h2, ?_⟩
      have h3' : (mdbGet tb'.maxts k).getD 0 = List.foldl max c rest := by
        simpa [mdbGet_mdbPut_self] using h3
      rw [h3']
      simp only [List.foldl_cons]
      rw [Nat.max_eq_right (le_of_lt (show (mdbGet tb.maxts k).getD 0 < c from hc))]
    · have hstep : (db_insert_maxts (some st) m k c).2 = some st := by
        simp [db_insert_maxts, hm, hc]
      obtain ⟨st', tb', h1, h2, h3⟩ := ih st tb hm
      refine ⟨st', tb', by simpa [maxtsCalls, hstep] using h1, h2, ?_⟩
      rw [h3]
      simp only [List.foldl_cons]
      rw [Nat.max_eq_left (not_lt.mp (show ¬ (mdbGet tb.maxts k).getD 0 < c from hc))]

/-- C5: after any serial sequence of `db_insert_maxts` calls on an
initially absent key the stored uint64 equals the maximum of all
candidates (starting from `0`); a single call overwrites only when the
candidate is strictly greater than the current stored value and
otherwise leaves the storage untouched. -/
theorem claim_C5_track_max :
    (∀ st m tb k cs, mdbGet st.modules m = some tb → mdbGet tb.maxts k = none →
      db_get_maxts (maxtsCalls (some st) m k cs) m k = cs.foldl max 0) ∧
    (∀ st m tb k c, mdbGet st.modules m = some tb → get_iu64 (some tb.maxts) k < c →
      db_insert_maxts (some st) m k c =
        (0, some { st with modules := mdbPut st.modules m { tb with maxts := mdbPut tb.maxts k c } })) ∧
    (∀ st m tb k c, mdbGet st.modules m = some tb → ¬ get_iu64 (some tb.maxts) k < c →
      db_insert_maxts (some st) m k c = (0, some st)) := by
  refine ⟨?_, ?_, ?_⟩
  · intro st m tb k cs hm habs
    obtain ⟨st', tb', h1, h2, h3⟩ := maxtsCalls_some m k cs st tb hm
    rw [h1]
    simp only [db_get_maxts, h2, get_iu64]
    rw [h3, habs]
    simp
  · intro st m tb k c hm hc
    simp [db_insert_maxts, hm, hc, ins_iu64]
  · intro st m tb k c hm hc
    simp [db_insert_maxts, hm, hc]

/-- C5, witness: with key `1` of the maxts table holding `10`, the
candidate `42` overwrites it and the candidate `5` leaves the storage
untouched. -/
theorem claim_C5_witness :
    db_insert_maxts (some storageA) GModule.REQUESTS 1 42 =
      (0, some { storageA with modules := mdbPut storageA.modules GModule.REQUESTS { tablesA with maxts := mdbPut tablesA.maxts 1 42 } }) ∧
    db_insert_maxts (some storageA) GModule.REQUESTS 1 5 = (0, some storageA) :=
  ⟨claim_C5_track_max.2.1 storageA GModule.REQUESTS tablesA 1 42 rfl (by decide),
   claim_C5_track_max.2.2 storageA GModule.REQUESTS tablesA 1 5 rfl (by decide)⟩

/-!
Bulk export (claim C6).
-/

/-- C6: `db_parse_raw_data` returns exactly `table_size` items — a
permutation of the exported table's current (last-written) key/value
pairs — with `VISITORS` exporting its string datamap sorted
lexicographically by value and every other module exporting the numeric
hits table sorted numerically by value. -/
theorem claim_C6_export :
    (∀ st tb, mdbGet st.modules GModule.VISITORS = some tb →
      ∃ raw, db_parse_raw_data st GModule.VISITORS = some raw ∧
        raw.type = GRawDataType.STRING ∧
        raw.size = db_get_size tb.datamap ∧
        raw.items.length = db_get_size tb.datamap ∧
        raw.items.Perm (tb.datamap.map (fun kv => GRawItem.mk kv.1 (.svalue kv.2))) ∧
        raw.items.Sorted rawStrLe) ∧
    (∀ st m tb, m ≠ GModule.VISITORS → mdbGet st.modules m = some tb →
      ∃ raw, db_parse_raw_data st m = some raw ∧
        raw.type = GRawDataType.INTEGER ∧
        raw.size = db_get_size tb.hits ∧
        raw.items.length = db_get_size tb.hits ∧
        raw.items.Perm (tb.hits.map (fun kv => GRawItem.mk kv.1 (.ivalue kv.2))) ∧
        raw.items.Sorted rawNumLe) := by
  constructor
  · intro st tb hm
    refine ⟨sort_raw_str_data
      { module := GModule.VISITORS, type := .STRING, size := db_get_size tb.datamap,
        items := tb.datamap.map (fun kv => GRawItem.mk kv.1 (.svalue kv.2)) }, ?_, rfl, rfl, ?_, ?_, ?_⟩
    · simp [db_parse_raw_data, parse_raw_str_data, hm]
    · simp [sort_raw_str_data, List.length_insertionSort, db_get_size]
    · simpa [sort_raw_str_data] using List.perm_insertionSort rawStrLe _
    · simpa [sort_raw_str_data] using List.sorted_insertionSort rawStrLe _
  · intro st m tb hne hm
    have hred : db_parse_raw_data st m = parse_raw_num_data st m := by
      cases m
      · exact absurd rfl hne
      · rfl
      · rfl
    refine ⟨sort_raw_num_data
      { module := m, type := .INTEGER, size := db_get_size tb.hits,
        items := tb.hits.map (fun kv => GRawItem.mk kv.1 (.ivalue kv.2)) }, ?_, rfl, rfl, ?_, ?_, ?_⟩
    · rw [hred]
      simp [parse_raw_num_data, hm]
    · simp [sort_raw_num_data, List.length_insertionSort, db_get_size]
    · simpa [sort_raw_num_data] using List.perm_insertionSort rawNumLe _
    · simpa [sort_raw_num_data] using List.sorted_insertionSort rawNumLe _

/-- C6, witness: exporting the `REQUESTS` module of `storageA` (hits
table `[(1, 3)]`) yields one `INTEGER` item `(1, 3)`, sorted. -/
theorem claim_C6_witness :
    ∃ raw, db_parse_raw_data storageA GModule.REQUESTS = some raw ∧
      raw.type = GRawDataType.INTEGER ∧
      raw.size = 1 ∧
      raw.items.length = 1 ∧
      raw.items.Perm [GRawItem.mk 1 (.ivalue 3)] ∧
      raw.items.Sorted rawNumLe := by
  have h := claim_C6_export.2 storageA GModule.REQUESTS tablesA (by decide) rfl
  simpa [db_get_size, tablesA, emptyTables] using h

/-!
Uninitialized storage and unregistered modules (claim C7).
-/

/-- C7: with storage never initialized (`db_storage == NULL`, so every
table resolves to `NULL`), and likewise for a registered storage but an
unregistered module, every accessor returns its uniform unavailable
sentinel — `none` for the string getters, `-1` for the int-returning
accessors, `0` for the uint64/size getters — and no accessor aborts. -/
theorem claim_C7_uninitialized :
    (∀ m k ik d u sv,
      db_insert_unique_key none k = (-1, none) ∧
      db_insert_agent_key none k = (-1, none) ∧
      db_insert_agent_value none ik sv = (-1, none) ∧
      db_insert_keymap none m k = (-1, none) ∧
      db_insert_uniqmap none m k = (-1, none) ∧
      db_insert_datamap none m ik sv = (-1, none) ∧
      db_insert_rootmap none m ik sv = (-1, none) ∧
      db_insert_root none m ik d = (-1, none) ∧
      db_insert_hits none m ik d = (-1, none) ∧
      db_insert_visitor none m ik d = (-1, none) ∧
      db_insert_bw none m ik u = (-1, none) ∧
      db_insert_cumts none m ik u = (-1, none) ∧
      db_insert_maxts none m ik u = (-1, none) ∧
      db_insert_method none m ik sv = (-1, none) ∧
      db_insert_protocol none m ik sv = (-1, none) ∧
      db_insert_meta_data none m k u = (-1, none) ∧
      db_get_hostname none k = none ∧
      db_get_datamap none m ik = none ∧
      db_get_hits none m ik = -1 ∧
      db_get_visitors none m ik = -1 ∧
      db_get_bw none m ik = 0 ∧
      db_get_cumts none m ik = 0 ∧
      db_get_maxts none m ik = 0 ∧
      db_get_method none m ik = none ∧
      db_get_protocol none m ik = none ∧
      db_get_root none m ik = none ∧
      db_get_size_uniqmap none m = 0 ∧
      db_get_size_datamap none m = 0) ∧
    (∀ st m k ik d u sv, mdbGet st.modules m = none →
      db_insert_keymap (some st) m k = (-1, some st) ∧
      db_insert_uniqmap (some st) m k = (-1, some st) ∧
      db_insert_hits (some st) m ik d = (-1, some st) ∧
      db_insert_bw (some st) m ik u = (-1, some st) ∧
      db_insert_maxts (some st) m ik u = (-1, some st) ∧
      db_insert_meta_data (some st) m k u = (-1, some st) ∧
      db_insert_datamap (some st) m ik sv = (-1, some st) ∧
      db_get_hits (some st) m ik = -1 ∧
      db_get_datamap (some st) m ik = none ∧
      db_get_bw (some st) m ik = 0 ∧
      db_get_maxts (some st) m ik = 0 ∧
      db_get_root (some st) m ik = none ∧
      db_get_size_uniqmap (some st) m = 0 ∧
      db_get_size_datamap (some st) m = 0) := by
  constructor
  · intro m k ik d u sv
    refine ⟨rfl, rfl, rfl, rfl, rfl, rfl, rfl, rfl, rfl, rfl, rfl, rfl, rfl, rfl, rfl, rfl,
      rfl, rfl, rfl, rfl, rfl, rfl, rfl, rfl, rfl, rfl, rfl, rfl⟩
  · intro st m k ik d u sv h
    simp [db_insert_keymap, db_insert_uniqmap, db_insert_hits, db_insert_bw, db_insert_maxts,
      db_insert_meta_data, db_insert_datamap, db_get_hits, db_get_datamap, db_get_bw,
      db_get_maxts, db_get_root, db_get_size_uniqmap, db_get_size_datamap, h]

/-- C7, witness: the `HOSTS` module is unregistered in `storageA`, so
its keymap insert returns `-1` without touching the storage and its
bandwidth getter returns `0`. -/
theorem claim_C7_witness :
    db_insert_keymap (some storageA) GModule.HOSTS "k" = (-1, some storageA) ∧
    db_get_bw (some storageA) GModule.HOSTS 1 = 0 := by
  have h := claim_C7_uninitialized.2 storageA GModule.HOSTS "k" 1 2 3 "v" rfl
  exact ⟨h.1, h.2.2.2.2.2.2.2.2.2.1⟩

/-!
String codec (claim C8).
-/

/-- C8: string keys are encoded as exactly their raw bytes (length
`strlen`, no terminator), string values carry their terminator (length
`strlen + 1`), and a written string key is found by a lookup exactly when
the lookup passes the same bytes with the same length. -/
theorem claim_C8_codec :
    (∀ k : CStr, (encodeStrKey k).length = strlen k) ∧
    (∀ v : CStr, (encodeStrVal v).length = strlen v + 1) ∧
    (∀ (k q v : CStr),
      byteGet (bytePut [] (encodeStrKey k) (encodeStrVal v)) (encodeStrKey q) =
        some (encodeStrVal v) ↔ q = k) ∧
    (∀ k q : CStr, encodeStrKey q = encodeStrKey k ↔ q = k) := by
  refine ⟨fun k => rfl, ?_, ?_, fun k q => Iff.rfl⟩
  · intro v
    simp [encodeStrVal, strlen]
  · intro k q v
    by_cases h : q = k
    · subst h
      simp [byteGet, bytePut, mdbGet, mdbPut]
    · simp [byteGet, bytePut, mdbGet, mdbPut, encodeStrKey, h]

/-- C8, witness: the codec facts evaluated on the one-byte key `[97]`
and the value `[98]`. -/
theorem claim_C8_witness :
    (encodeStrKey [97]).length = strlen [97] ∧
    (encodeStrVal [97, 98]).length = strlen [97, 98] + 1 ∧
    (byteGet (bytePut [] (encodeStrKey [97]) (encodeStrVal [98])) (encodeStrKey [97]) =
      some (encodeStrVal [98]) ↔ ([97] : CStr) = [97]) :=
  ⟨claim_C8_codec.1 [97], claim_C8_codec.2.1 [97, 98], claim_C8_codec.2.2.1 [97] [97] [98]⟩

/-!
Interning ids are positive (claim C9).
-/

/-- Invariant of the four interning tables: every stored id is at least
`1`. -/
abbrev allPos (t : SI32) : Prop := ∀ p ∈ t, 1 ≤ p.2

/-- `mdb_put` of a positive value preserves the positivity
invariant. -/
theorem allPos_mdbPut (t : SI32) (k : String) (v : Int) (h : allPos t) (hv : 1 ≤ v) :
    allPos (mdbPut t k v) := by
  induction t with
  | nil =>
    intro p hp
    simp [mdbPut] at hp
    rw [hp]
    exact hv
  | cons q rest ih =>
    intro p hp
    obtain ⟨a, b⟩ := q
    by_cases hk : k = a
    · simp [mdbPut, hk] at hp
      rcases hp with hp | hp
      · rw [hp]; exact hv
      · exact h p (List.mem_cons_of_mem _ hp)
    · simp [mdbPut, hk] at hp
      rcases hp with hp | hp
      · exact h p (by rw [hp]; exact List.mem_cons_self _ _)
      · exact ih (fun p hp => h p (List.mem_cons_of_mem _ hp)) p hp

/-- A successful `mdb_get` result is a binding of the table. -/
theorem mdbGet_mem {κ ν : Type} [DecidableEq κ] :
    ∀ (t : List (κ × ν)) (k : κ) (v : ν), mdbGet t k = some v → (k, v) ∈ t := by
  intro t k v
  induction t with
  | nil => intro h; simp [mdbGet] at h
  | cons q rest ih =>
    obtain ⟨a, b⟩ := q
    intro h
    by_cases hk : k = a
    · subst hk
      simp [mdbGet] at h
      subst h
      exact List.mem_cons_self _ _
    · simp [mdbGet, hk] at h
      exact List.mem_cons_of_mem _ (ih h)

/-- Closed form of `ins_si32_ai` on a non-`NULL` handle. -/
theorem ins_si32_ai_some (t : SI32) (k : String) :
    ins_si32_ai (some t) k =
      ((t.length : Int) + 1, some (mdbPut t k ((t.length : Int) + 1))) := by
  simp [ins_si32_ai, ins_si32, db_get_size, ai_value]

/-- C9: `ins_si32_ai` always stores and returns an id of at least `1`
(`size + 1 ≥ 1`), each of the four interning inserts preserves the
positivity invariant of its table, and under that invariant the `-1`
result of the string-keyed int lookup means exactly that the key is
absent. -/
theorem claim_C9_sentinel_unambiguous :
    (∀ (t : SI32) (k : String), allPos t →
      1 ≤ (ins_si32_ai (some t) k).1 ∧
      ∀ t', (ins_si32_ai (some t) k).2 = some t' → allPos t') ∧
    (∀ (t : SI32) (k : String), allPos t →
      (get_si32 (some t) k = -1 ↔ mdbGet t k = none)) ∧
    (∀ st m tb k, mdbGet st.modules m = some tb → allPos tb.keymap →
      ∃ st' tb', (db_insert_keymap (some st) m k).2 = some st' ∧
        mdbGet st'.modules m = some tb' ∧ allPos tb'.keymap) ∧
    (∀ st m tb k, mdbGet st.modules m = some tb → allPos tb.uniqmap →
      ∃ st' tb', (db_insert_uniqmap (some st) m k).2 = some st' ∧
        mdbGet st'.modules m = some tb' ∧ allPos tb'.uniqmap) ∧
    (∀ st k, allPos st.unique_keys →
      ∃ st', (db_insert_unique_key (some st) k).2 = some st' ∧ allPos st'.unique_keys) ∧
    (∀ st k, allPos st.agent_keys →
      ∃ st', (db_insert_agent_key (some st) k).2 = some st' ∧ allPos st'.agent_keys) := by
  have hval : ∀ t : SI32, (1 : Int) ≤ (t.length : Int) + 1 := by
    intro t
    have : (0 : Int) ≤ (t.length : Int) := Int.natCast_nonneg _
    omega
  have hai : ∀ (t : SI32) (k : String), allPos t →
      1 ≤ (ins_si32_ai (some t) k).1 ∧
      ∀ t', (ins_si32_ai (some t) k).2 = some t' → allPos t' := by
    intro t k h
    constructor
    · rw [ins_si32_ai_some]
      exact hval t
    · intro t' ht'
      rw [ins_si32_ai_some] at ht'
      simp at ht'
      rw [← ht']
      exact allPos_mdbPut t k _ h (hval t)
  have hget : ∀ (t : SI32) (k : String), allPos t →
      (get_si32 (some t) k = -1 ↔ mdbGet t k = none) := by
    intro t k h
    constructor
    · intro hg
      cases hmk : mdbGet t k with
      | none => rfl
      | some v =>
        have hv : 1 ≤ v := h (k, v) (mdbGet_mem t k v hmk)
        simp only [get_si32] at hg
        rw [hmk] at hg
        simp at hg
        omega
    · intro hmk
      simp [get_si32, hmk]
  refine ⟨hai, hget, ?_, ?_, ?_, ?_⟩
  · intro st m tb k hm h
    by_cases hq : get_si32 (some tb.keymap) k = -1
    · refine ⟨{ st with modules := mdbPut st.modules m { tb with keymap := mdbPut tb.keymap k ((tb.keymap.length : Int) + 1) } },
        { tb with keymap := mdbPut tb.keymap k ((tb.keymap.length : Int) + 1) }, ?_,
        mdbGet_mdbPut_self st.modules m _, allPos_mdbPut tb.keymap k _ h (hval tb.keymap)⟩
      simp [db_insert_keymap, hm, hq, ins_si32_ai_some]
    · exact ⟨st, tb, by simp [db_insert_keymap, hm, hq], hm, h⟩
  · intro st m tb k hm h
    by_cases hq : get_si32 (some tb.uniqmap) k = -1
    · refine ⟨{ st with modules := mdbPut st.modules m { tb with uniqmap := mdbPut tb.uniqmap k ((tb.uniqmap.length : Int) + 1) } },
        { tb with uniqmap := mdbPut tb.uniqmap k ((tb.uniqmap.length : Int) + 1) }, ?_,
        mdbGet_mdbPut_self st.modules m _, allPos_mdbPut tb.uniqmap k _ h (hval tb.uniqmap)⟩
      simp [db_insert_uniqmap, hm, hq, ins_si32_ai_some]
    · exact ⟨st, tb, by simp [db_insert_uniqmap, hm, hq], hm, h⟩
  · intro st k h
    by_cases hq : get_si32 (some st.unique_keys) k = -1
    · refine ⟨{ st with unique_keys := mdbPut st.unique_keys k ((st.unique_keys.length : Int) + 1) }, ?_,
        allPos_mdbPut st.unique_keys k _ h (hval st.unique_keys)⟩
      simp [db_insert_unique_key, hq, ins_si32_ai_some]
    · exact ⟨st, by simp [db_insert_unique_key, hq], h⟩
  · intro st k h
    by_cases hq : get_si32 (some st.agent_keys) k = -1
    · refine ⟨{ st with agent_keys := mdbPut st.agent_keys k ((st.agent_keys.length : Int) + 1) }, ?_,
        allPos_mdbPut st.agent_keys k _ h (hval st.agent_keys)⟩
      simp [db_insert_agent_key, hq, ins_si32_ai_some]
    · exact ⟨st, by simp [db_insert_agent_key, hq], h⟩

/-- C9, witness: on the keymap `[("a", 5)]` the `-1` lookup result means
exactly "absent", and a fresh auto-increment insert keeps all ids at
least `1`. -/
theorem claim_C9_witness :
    (get_si32 (some [("a", (5 : Int))]) "b" = -1 ↔ mdbGet [("a", (5 : Int))] "b" = none) ∧
    (1 ≤ (ins_si32_ai (some [("a", (5 : Int))]) "b").1 ∧
      ∀ t', (ins_si32_ai (some [("a", (5 : Int))]) "b").2 = some t' → allPos t') :=
  ⟨claim_C9_sentinel_unambiguous.2.1 [("a", 5)] "b" (by decide),
   claim_C9_sentinel_unambiguous.1 [("a", 5)] "b" (by decide)⟩

/-!
Root lookup and the zero sentinel (claim C10).
-/

/-- C10: `db_get_root` returns `none` whenever the root table's stored
int for the key is `0` — including when `0` was explicitly inserted via
`db_insert_root` — because `get_ii32` reads `0` both for an absent key
and for a stored `0`; only a nonzero root id leads to the rootmap
lookup. -/
theorem claim_C10_root_zero :
    (∀ st m tb k, mdbGet st.modules m = some tb →
      db_get_root (db_insert_root (some st) m k 0).2 m k = none) ∧
    (∀ st m tb k, mdbGet st.modules m = some tb → get_ii32 (some tb.root) k = 0 →
      db_get_root (some st) m k = none) ∧
    (∀ st m tb k v, mdbGet st.modules m = some tb → get_ii32 (some tb.root) k = v → v ≠ 0 →
      db_get_root (some st) m k = get_is32 (some tb.rootmap) v) := by
  refine ⟨?_, ?_, ?_⟩
  · intro st m tb k hm
    simp [db_insert_root, ins_ii32, hm, db_get_root, mdbGet_mdbPut_self, get_ii32]
  · intro st m tb k hm h
    simp [db_get_root, hm, h]
  · intro st m tb k v hm h hv
    simp [db_get_root, hm, h, hv]

/-- C10, witness: in `storageA` the root table holds `1 ↦ 0` and
`2 ↦ 7`, the rootmap holds `7 ↦ "root7"`: an explicit insert of `0` is
reported as `none`, the stored `0` is reported as `none`, and the
nonzero root id `7` resolves through the rootmap. -/
theorem claim_C10_witness :
    db_get_root (db_insert_root (some storageA) GModule.REQUESTS 3 0).2 GModule.REQUESTS 3 = none ∧
    db_get_root (some storageA) GModule.REQUESTS 1 = none ∧
    db_get_root (some storageA) GModule.REQUESTS 2 = get_is32 (some tablesA.rootmap) 7 :=
  ⟨claim_C10_root_zero.1 storageA GModule.REQUESTS tablesA 3 rfl,
   claim_C10_root_zero.2.1 storageA GModule.REQUESTS tablesA 1 rfl rfl,
   claim_C10_root_zero.2.2 storageA GModule.REQUESTS tablesA 2 7 rfl rfl (by decide)⟩

end Mdb
